import Mathlib

/-!
Verification development for the bun-vector-mcp retrieval-augmented QA pipeline.

The definitions below are a shallow embedding of the TypeScript sources:
`src/services/ingest.ts` (file / CSV / sitemap ingestion), the HTTP route
handlers of the server entry point, the database-merge script, and
`src/utils/sitemap.ts` (recursive sitemap URL extraction).  Embedding vectors
are modelled as lists of rationals; the external collaborators (embedding
model, question generator, chunk splitter, text normalizer) are passed in as
an explicit record of pure functions, mirroring the awaited service calls of
the source.  Side effects that do not influence the verified properties
(logging, metadata timestamps) are omitted.
-/

/-- JS `String.prototype.trim`: removes leading and trailing whitespace.
Modelled directly over the character list so it evaluates in the kernel. -/
def trimText (s : String) : String :=
  ⟨((s.data.dropWhile Char.isWhitespace).reverse.dropWhile
      Char.isWhitespace).reverse⟩

/-- Result record returned per source by every ingestion path
(`IngestResult` in `src/types`): source identifier, number of chunks
created, success flag, optional error message. -/
structure IngestResult where
  filename : String
  chunks_created : Nat
  success : Bool
  error : Option String
deriving Repr, DecidableEq

/-- A chunk record as inserted by `insertDocument`: source identifier, full
source text, chunk text, content embedding, 0-based chunk index, chunk size,
hypothetical questions and their embeddings.  The open metadata map
(timestamps, model version, strategy tags) is omitted from the pure model. -/
structure ChunkRecord where
  filename : String
  content : String
  chunk_text : String
  embedding : List ℚ
  chunk_index : Nat
  chunk_size : Nat
  questions : List String
  question_embeddings : List (List ℚ)
deriving Repr, DecidableEq

instance : Inhabited ChunkRecord :=
  ⟨{ filename := "", content := "", chunk_text := "", embedding := [],
     chunk_index := 0, chunk_size := 0, questions := [],
     question_embeddings := [] }⟩

/-- The external collaborators awaited by the ingestion pipeline, modelled
as pure functions: `generateEmbeddings` (batch of normalized texts to a
batch of vectors), `generateQuestions`, the chunk splitter used when the
text exceeds the size threshold (`semanticChunking` / `chunkText`), and
`normalizeForEmbedding`. -/
structure IngestDeps where
  embed : List String → List (List ℚ)
  genQuestions : String → List String
  split : String → List String
  normalize : String → String

/-- The chunk-size bypass shared by the file, sitemap and CSV paths
(`content.length > CHUNK_SIZE ? split(content) : [content]`). -/
def chunksForText (deps : IngestDeps) (chunkSize : Nat)
    (text : String) : List String :=
  if chunkSize < text.length then deps.split text else [text]

/-- The chunk records built by the batch section of `ingestFile`
(src/services/ingest.ts lines 291-358): one batch embedding call over all
normalized chunks, per-chunk question generation, question embeddings only
for non-empty question lists, then one record per chunk index. -/
def fileChunkRecords (deps : IngestDeps) (filename content : String)
    (chunks : List String) : List ChunkRecord :=
  (List.range chunks.length).map (fun i =>
    { filename := filename
      content := content
      chunk_text := chunks.getD i ""
      embedding := (deps.embed (chunks.map deps.normalize)).getD i []
      chunk_index := i
      chunk_size := (chunks.getD i "").length
      questions := (chunks.map deps.genQuestions).getD i []
      question_embeddings :=
        ((chunks.map deps.genQuestions).map (fun qs =>
          if qs.isEmpty then []
          else deps.embed (qs.map deps.normalize))).getD i [] })

/-- `ingestFile` (src/services/ingest.ts, non-CSV, non-code text path,
lines 254-366), given the text extracted by `extractTextFromFile`.
Returns the `IngestResult` together with the list of chunk records passed
to `insertDocument`.  The JS guard `!content || content.trim().length === 0`
is `trimText content = ""`. -/
def ingestFile (deps : IngestDeps) (chunkSize : Nat)
    (filename content : String) : IngestResult × List ChunkRecord :=
  if trimText content = "" then
    ({ filename := filename, chunks_created := 0, success := false,
       error := some "No text content found in file" }, [])
  else if (chunksForText deps chunkSize content).isEmpty then
    ({ filename := filename, chunks_created := 0, success := false,
       error := some "No valid chunks created from content" }, [])
  else
    ({ filename := filename,
       chunks_created := (chunksForText deps chunkSize content).length,
       success := true, error := none },
     fileChunkRecords deps filename content
       (chunksForText deps chunkSize content))

/-- The chunk records built by the per-chunk loop of `ingestSitemap`
(lines 612-673): embedding of the single normalized chunk (the
destructured head of `generateEmbeddings([normalizedChunk])`), generated
questions, question embeddings only when non-empty, and the per-chunk
document identifier derived from the page title. -/
def sitemapChunkRecords (deps : IngestDeps)
    (extractedText title : String) (chunks : List String) :
    List ChunkRecord :=
  (List.range chunks.length).map (fun chunkIdx =>
    let chunk := chunks.getD chunkIdx ""
    let questions := deps.genQuestions chunk
    { filename :=
        if 1 < chunks.length then
          title ++ " [Chunk " ++ toString (chunkIdx + 1) ++ "/" ++
            toString chunks.length ++ "]"
        else title
      content := extractedText
      chunk_text := chunk
      embedding := (deps.embed [deps.normalize chunk]).getD 0 []
      chunk_index := chunkIdx
      chunk_size := chunk.length
      questions := questions
      question_embeddings :=
        if questions.isEmpty then []
        else deps.embed (questions.map deps.normalize) })

/-- Per-URL processing of `ingestSitemap` (src/services/ingest.ts, lines
580-683) once the page text and title have been extracted by the browser:
the no-content guard, the chunk-size bypass, then one record per chunk. -/
def ingestSitemapPage (deps : IngestDeps) (chunkSize : Nat)
    (normalizedUrl extractedText title : String) :
    IngestResult × List ChunkRecord :=
  if trimText extractedText = "" then
    ({ filename := normalizedUrl, chunks_created := 0, success := false,
       error := some "No content extracted" }, [])
  else
    ({ filename := normalizedUrl,
       chunks_created := (chunksForText deps chunkSize extractedText).length,
       success := true, error := none },
     sitemapChunkRecords deps extractedText title
       (chunksForText deps chunkSize extractedText))

/-- Chunk selection for one CSV row (`ingestCSV`, lines 140-149): a row with
a non-empty thesis field is kept as a single chunk; otherwise the usual
size-threshold split applies to the combined row text. -/
def csvChunksFor (deps : IngestDeps) (chunkSize : Nat)
    (thesisField combinedText : String) : List String :=
  if trimText thesisField ≠ "" then [combinedText]
  else chunksForText deps chunkSize combinedText

/-- Per-chunk record construction of `ingestCSV` (lines 157-215): embedding
of the single normalized chunk, questions taken from the thesis field when
present (the same trimmed thesis for every chunk of the row) or generated,
question embeddings only when the question list is non-empty, and the
per-chunk document identifier. -/
def csvChunkRecords (deps : IngestDeps)
    (docIdentifier thesisField combinedText : String)
    (chunks : List String) : List ChunkRecord :=
  (List.range chunks.length).map (fun chunkIdx =>
    let chunk := chunks.getD chunkIdx ""
    let questions :=
      if trimText thesisField ≠ "" then [trimText thesisField]
      else deps.genQuestions chunk
    { filename :=
        if 1 < chunks.length then
          docIdentifier ++ " [Chunk " ++ toString (chunkIdx + 1) ++ "/" ++
            toString chunks.length ++ "]"
        else docIdentifier
      content := combinedText
      chunk_text := chunk
      embedding := (deps.embed [deps.normalize chunk]).getD 0 []
      chunk_index := chunkIdx
      chunk_size := chunk.length
      questions := questions
      question_embeddings :=
        if questions.isEmpty then []
        else deps.embed (questions.map deps.normalize) })

/-- Claim C5: for every source whose extracted text is empty or
whitespace-only, ingestion (file path and sitemap path) creates zero
chunks, inserts nothing into the store, and returns a failure result with
`success = false`, `chunks_created = 0` and a no-content error, rather
than throwing. -/
theorem empty_source_fails_without_insert (deps : IngestDeps)
    (chunkSize : Nat) (filename content normalizedUrl title : String)
    (h : trimText content = "") :
    ingestFile deps chunkSize filename content =
      ({ filename := filename, chunks_created := 0, success := false,
         error := some "No text content found in file" }, []) ∧
    ingestSitemapPage deps chunkSize normalizedUrl content title =
      ({ filename := normalizedUrl, chunks_created := 0, success := false,
         error := some "No content extracted" }, []) := by
  constructor
  · simp [ingestFile, h]
  · simp [ingestSitemapPage, h]

/-- Witness for C5 at a concrete empty source. -/
theorem empty_source_fails_without_insert_witness :
    ingestFile
        { embed := fun ts => ts.map (fun _ => [(1 : ℚ)]),
          genQuestions := fun _ => [], split := fun t => [t],
          normalize := id } 1000 "a.txt" "" =
      ({ filename := "a.txt", chunks_created := 0, success := false,
         error := some "No text content found in file" }, []) :=
  (empty_source_fails_without_insert
    { embed := fun ts => ts.map (fun _ => [(1 : ℚ)]),
      genQuestions := fun _ => [], split := fun t => [t],
      normalize := id } 1000 "a.txt" "" "u" "t" (by decide)).1

/-- Concrete collaborator instance used by the evaluation witnesses. -/
def wDeps : IngestDeps where
  embed := fun ts => ts.map (fun _ => [(1 : ℚ)])
  genQuestions := fun t => [t ++ "?"]
  split := fun t => [t]
  normalize := fun t => t

/-- Claim C6: a non-empty source whose text length does not exceed the
chunk-size threshold bypasses splitting on both the file path and the
sitemap path: exactly one chunk whose text is the entire source, with one
content vector (given the embedding adapter contract) and chunk index 0. -/
theorem short_source_single_chunk (deps : IngestDeps) (chunkSize : Nat)
    (filename content normalizedUrl title : String)
    (hne : trimText content ≠ "") (hlen : content.length ≤ chunkSize)
    (hembed : ∀ ts, (deps.embed ts).length = ts.length) :
    ingestFile deps chunkSize filename content =
      ({ filename := filename, chunks_created := 1, success := true,
         error := none },
       [{ filename := filename, content := content, chunk_text := content,
          embedding := (deps.embed [deps.normalize content]).getD 0 [],
          chunk_index := 0, chunk_size := content.length,
          questions := deps.genQuestions content,
          question_embeddings :=
            if (deps.genQuestions content).isEmpty then []
            else deps.embed
              ((deps.genQuestions content).map deps.normalize) }])
  ∧ (deps.embed [deps.normalize content]).length = 1
  ∧ ingestSitemapPage deps chunkSize normalizedUrl content title =
      ({ filename := normalizedUrl, chunks_created := 1, success := true,
         error := none },
       [{ filename := title, content := content, chunk_text := content,
          embedding := (deps.embed [deps.normalize content]).getD 0 [],
          chunk_index := 0, chunk_size := content.length,
          questions := deps.genQuestions content,
          question_embeddings :=
            if (deps.genQuestions content).isEmpty then []
            else deps.embed
              ((deps.genQuestions content).map deps.normalize) }]) := by
  have hlt : ¬ chunkSize < content.length := Nat.not_lt.mpr hlen
  refine ⟨?_, ?_, ?_⟩
  · simp [ingestFile, chunksForText, fileChunkRecords, hne, hlt,
      List.range_succ]
  · simpa using hembed [deps.normalize content]
  · simp [ingestSitemapPage, chunksForText, sitemapChunkRecords, hne, hlt,
      List.range_succ]

/-- Witness for C6 at a concrete five-character source under a 1000-character
threshold, with the collaborators of `wDeps`. -/
theorem short_source_single_chunk_witness :
    ingestFile wDeps 1000 "doc.txt" "hello" =
      ({ filename := "doc.txt", chunks_created := 1, success := true,
         error := none },
       [{ filename := "doc.txt", content := "hello", chunk_text := "hello",
          embedding := [1], chunk_index := 0, chunk_size := 5,
          questions := ["hello?"], question_embeddings := [[1]] }]) := by
  have h := (short_source_single_chunk wDeps 1000 "doc.txt" "hello" "u" "t"
    (by decide) (by decide) (fun ts => by simp [wDeps])).1
  simpa [wDeps] using h

/-- `getD` of the mapped question-embedding list at an in-bounds index. -/
theorem questionEmbeddings_getD (deps : IngestDeps) (cs : List String)
    (i : Nat) (hi : i < cs.length) :
    ((cs.map deps.genQuestions).map (fun qs =>
        if qs.isEmpty then ([] : List (List ℚ))
        else deps.embed (qs.map deps.normalize))).getD i [] =
      (if ((cs.map deps.genQuestions).getD i []).isEmpty then []
       else deps.embed (((cs.map deps.genQuestions).getD i []).map
         deps.normalize)) := by
  rw [List.getD_eq_getElem _ _ (by simpa using hi),
    List.getD_eq_getElem _ _ (by simpa using hi), List.getElem_map]

/-- Claim C8: every chunk record inserted by the file, sitemap and CSV
ingestion paths carries question embeddings derived from exactly its own
questions — the embeddings list is the adapter image of the normalized
questions, empty when there are no questions — so under the adapter
contract (a batch of n texts yields n vectors) its length equals the
length of the question list. -/
theorem question_embeddings_aligned (deps : IngestDeps) (chunkSize : Nat)
    (filename content normalizedUrl title docIdentifier thesisField
      combinedText : String) (chunks : List String)
    (hembed : ∀ ts, (deps.embed ts).length = ts.length) :
    (∀ rec ∈ (ingestFile deps chunkSize filename content).2,
        rec.question_embeddings =
          (if rec.questions.isEmpty then []
           else deps.embed (rec.questions.map deps.normalize)) ∧
        rec.question_embeddings.length = rec.questions.length)
  ∧ (∀ rec ∈ (ingestSitemapPage deps chunkSize normalizedUrl content
        title).2,
        rec.question_embeddings =
          (if rec.questions.isEmpty then []
           else deps.embed (rec.questions.map deps.normalize)) ∧
        rec.question_embeddings.length = rec.questions.length)
  ∧ (∀ rec ∈ csvChunkRecords deps docIdentifier thesisField combinedText
        chunks,
        rec.question_embeddings =
          (if rec.questions.isEmpty then []
           else deps.embed (rec.questions.map deps.normalize)) ∧
        rec.question_embeddings.length = rec.questions.length) := by
  have key : ∀ qs : List String, (if qs.isEmpty then ([] : List (List ℚ))
      else deps.embed (qs.map deps.normalize)).length = qs.length := by
    intro qs
    cases qs with
    | nil => simp
    | cons a as => simp [hembed]
  have hfile : ∀ cs : List String,
      ∀ rec ∈ fileChunkRecords deps filename content cs,
        rec.question_embeddings =
          (if rec.questions.isEmpty then []
           else deps.embed (rec.questions.map deps.normalize)) ∧
        rec.question_embeddings.length = rec.questions.length := by
    intro cs rec hrec
    unfold fileChunkRecords at hrec
    simp only [List.mem_map, List.mem_range] at hrec
    obtain ⟨i, hi, rfl⟩ := hrec
    refine ⟨questionEmbeddings_getD deps cs i hi, ?_⟩
    have h2 := questionEmbeddings_getD deps cs i hi
    simp only [h2]
    exact key _
  refine ⟨?_, ?_, ?_⟩
  · intro rec hrec
    unfold ingestFile at hrec
    split at hrec
    · simp at hrec
    · split at hrec
      · simp at hrec
      · exact hfile _ rec hrec
  · intro rec hrec
    unfold ingestSitemapPage at hrec
    split at hrec
    · simp at hrec
    · unfold sitemapChunkRecords at hrec
      simp only [List.mem_map, List.mem_range] at hrec
      obtain ⟨i, hi, rfl⟩ := hrec
      exact ⟨rfl, key _⟩
  · intro rec hrec
    unfold csvChunkRecords at hrec
    simp only [List.mem_map, List.mem_range] at hrec
    obtain ⟨i, hi, rfl⟩ := hrec
    exact ⟨rfl, key _⟩

/-- Witness for C8: the concrete record inserted when `wDeps` ingests the
five-character source "hello" under threshold 2 has as many question
embeddings as questions. -/
theorem question_embeddings_aligned_witness :
    (ChunkRecord.mk "doc.txt" "hello" "hello" [1] 0 5 ["hello?"]
        [[1]]).question_embeddings.length =
      (ChunkRecord.mk "doc.txt" "hello" "hello" [1] 0 5 ["hello?"]
        [[1]]).questions.length := by
  have h := (question_embeddings_aligned wDeps 2 "doc.txt" "hello" "u" "t"
    "d" "th" "c" [] (fun ts => by simp [wDeps])).1
  exact (h (ChunkRecord.mk "doc.txt" "hello" "hello" [1] 0 5 ["hello?"]
    [[1]]) (by decide)).2

/-- One iteration of the `ingestDirectory` batch loop as seen from outside
`ingestFile`: either a returned `IngestResult`, or a thrown
`IngestionError` message (`ingestFile` rethrows per-file failures, lines
367-374 of src/services/ingest.ts). -/
def ingestDirectoryGo (acc : List IngestResult) :
    List (Except String IngestResult) → List IngestResult
  | [] => acc
  | Except.ok r :: rest => ingestDirectoryGo (acc ++ [r]) rest
  | Except.error _ :: _ => acc

/-- `ingestDirectory` (src/services/ingest.ts lines 377-411): the per-file
loop pushes each returned result; an exception thrown by `ingestFile` is
NOT caught inside the loop — it propagates to the catch surrounding the
whole loop, which returns the results accumulated so far. -/
def ingestDirectory (outcomes : List (Except String IngestResult)) :
    List IngestResult :=
  ingestDirectoryGo [] outcomes

/-- Outcome of processing one sitemap URL inside the `ingestSitemap` loop
(lines 459-695): the URL fails validation, or page processing throws (the
per-URL catch at lines 684-694), or per-URL processing returns a result
(success, or the in-loop no-content failure record). -/
inductive PageOutcome where
  | invalidUrl (url : String)
  | pageFailure (normalizedUrl message : String)
  | pageResult (r : IngestResult)
deriving Repr, DecidableEq

/-- The single result record pushed for one sitemap URL: lines 468-473
(invalid URL), 687-692 (per-URL catch) and 589-595 / 679-683 (returned
page result). -/
def sitemapEntryResult : PageOutcome → IngestResult
  | PageOutcome.invalidUrl url =>
      { filename := url, chunks_created := 0, success := false,
        error := some "Invalid URL" }
  | PageOutcome.pageFailure u m =>
      { filename := u, chunks_created := 0, success := false,
        error := some m }
  | PageOutcome.pageResult r => r

/-- The `ingestSitemap` batch loop: exactly one result entry is pushed per
URL, in order, whatever the per-URL outcome. -/
def ingestSitemap (outcomes : List PageOutcome) : List IngestResult :=
  outcomes.map sitemapEntryResult

/-- `ingestDirectoryGo` on an all-ok prefix followed by a thrown error
drops the error and everything after it. -/
theorem ingestDirectoryGo_spec (e : String)
    (rest : List (Except String IngestResult)) :
    ∀ (oks : List IngestResult) (acc : List IngestResult),
      ingestDirectoryGo acc (oks.map Except.ok ++ Except.error e :: rest) =
        acc ++ oks ∧
      ingestDirectoryGo acc (oks.map Except.ok) = acc ++ oks := by
  intro oks
  induction oks with
  | nil => intro acc; simp [ingestDirectoryGo]
  | cons r rs ih =>
    intro acc
    constructor
    · have h := (ih (acc ++ [r])).1
      simpa [ingestDirectoryGo] using h
    · have h := (ih (acc ++ [r])).2
      simpa [ingestDirectoryGo] using h

/-- Counterexample to claim C1 as stated: in `ingestDirectory`, a failure
while processing one file is not converted into a result entry — the
thrown `IngestionError` escapes the loop, so a two-file batch whose first
file throws returns zero result entries instead of two. -/
theorem batch_boundary_counterexample :
    (ingestDirectory [Except.error "Failed to ingest file a.txt: boom",
        Except.ok (IngestResult.mk "b.txt" 1 true none)]).length = 0 ∧
    [Except.error "Failed to ingest file a.txt: boom",
        Except.ok (IngestResult.mk "b.txt" 1 true none)].length = 2 := by
  constructor
  · rfl
  · rfl

/-- Claim C1 (amended): in `ingestSitemap` a failure while processing one
URL is caught at that URL's boundary and recorded as a
`{identifier, success := false, error}` entry, and every remaining URL is
still processed, so the result list has exactly one entry per URL; in
`ingestDirectory`, by contrast, a thrown `IngestionError` escapes the
per-file loop to the surrounding catch, so the batch returns only the
results accumulated before the failure — the failing file gets no entry
and later files are not processed (when no file throws, every file gets
its entry). -/
theorem batch_failure_boundary (outcomes : List PageOutcome)
    (oks : List IngestResult) (e : String)
    (rest : List (Except String IngestResult)) :
    (ingestSitemap outcomes).length = outcomes.length
  ∧ (∀ u m, PageOutcome.pageFailure u m ∈ outcomes →
      ({ filename := u, chunks_created := 0, success := false,
         error := some m } : IngestResult) ∈ ingestSitemap outcomes)
  ∧ ingestDirectory (oks.map Except.ok ++ Except.error e :: rest) = oks
  ∧ ingestDirectory (oks.map Except.ok) = oks := by
  refine ⟨?_, ?_, ?_, ?_⟩
  · simp [ingestSitemap]
  · intro u m hm
    exact List.mem_map.mpr ⟨PageOutcome.pageFailure u m, hm, rfl⟩
  · simpa using (ingestDirectoryGo_spec e rest oks []).1
  · simpa using (ingestDirectoryGo_spec e rest oks []).2

/-- Witness for C1 on a concrete sitemap batch with a mid-batch failure
and a concrete directory batch. -/
theorem batch_failure_boundary_witness :
    (ingestSitemap [PageOutcome.pageResult
        { filename := "https://a", chunks_created := 2, success := true,
          error := none },
      PageOutcome.pageFailure "https://b" "Timeout 30000ms exceeded",
      PageOutcome.invalidUrl "ftp://c"]).length = 3
  ∧ ({ filename := "https://b", chunks_created := 0, success := false,
       error := some "Timeout 30000ms exceeded" } : IngestResult) ∈
      ingestSitemap [PageOutcome.pageResult
        { filename := "https://a", chunks_created := 2, success := true,
          error := none },
      PageOutcome.pageFailure "https://b" "Timeout 30000ms exceeded",
      PageOutcome.invalidUrl "ftp://c"] := by
  have h := batch_failure_boundary
    [PageOutcome.pageResult
        { filename := "https://a", chunks_created := 2, success := true,
          error := none },
      PageOutcome.pageFailure "https://b" "Timeout 30000ms exceeded",
      PageOutcome.invalidUrl "ftp://c"]
    [] "boom" []
  exact ⟨h.1, h.2.1 "https://b" "Timeout 30000ms exceeded" (by decide)⟩

/-- An event of the `/ask/stream` server-sent event protocol
(`StreamEvent` in `src/types`): a content delta, or the terminal error
event built by the handler's catch block. -/
inductive StreamEvent where
  | contentDelta (text : String)
  | errorEv (message : String)
deriving Repr, DecidableEq

/-- What the `/ask/stream` ReadableStream start callback produced: the
ordered events enqueued on the controller, and whether the controller was
closed. -/
structure StreamRun where
  emitted : List StreamEvent
  closed : Bool
deriving Repr, DecidableEq

/-- The `/ask/stream` ReadableStream start callback (server entry point,
lines 232-264): every event yielded by `streamQuestion` is enqueued in
order; if the generator throws after its yielded prefix, the catch block
enqueues exactly one error event and closes the controller; on normal
completion the controller is closed with no extra event.  `yielded` is
the sequence the `streamQuestion` generator yields before returning or
throwing; `failure` is the thrown message, if any. -/
def runAskStream (yielded : List StreamEvent) (failure : Option String) :
    StreamRun :=
  match failure with
  | none => { emitted := yielded, closed := true }
  | some msg =>
      { emitted := yielded ++ [StreamEvent.errorEv msg], closed := true }

/-- Claim C3: for a streaming ask, the emitted sequence is the yielded
content-delta events followed by at most one terminal event: when the
model call fails after the n yielded deltas, exactly those n events are
followed by one error event, the stream is closed, and no event of any
kind follows the error event (the emitted list ends there); on success no
error event is appended. -/
theorem stream_error_terminal (yielded : List StreamEvent) (msg : String)
    (hdelta : ∀ e ∈ yielded, ∃ t, e = StreamEvent.contentDelta t) :
    (runAskStream yielded (some msg)).emitted =
      yielded ++ [StreamEvent.errorEv msg]
  ∧ (runAskStream yielded (some msg)).closed = true
  ∧ (runAskStream yielded (some msg)).emitted.length = yielded.length + 1
  ∧ (∀ i, i < yielded.length →
      ∃ t, (runAskStream yielded (some msg)).emitted.getD i
          (StreamEvent.errorEv "") = StreamEvent.contentDelta t)
  ∧ (runAskStream yielded (some msg)).emitted.getLast? =
      some (StreamEvent.errorEv msg)
  ∧ runAskStream yielded none = { emitted := yielded, closed := true } := by
  refine ⟨rfl, rfl, by simp [runAskStream], ?_, ?_, rfl⟩
  · intro i hi
    have hgd : (runAskStream yielded (some msg)).emitted.getD i
        (StreamEvent.errorEv "") = yielded.getD i (StreamEvent.errorEv "") :=
      List.getD_append _ _ _ _ hi
    rw [hgd, List.getD_eq_getElem _ _ hi]
    exact hdelta _ (List.getElem_mem hi)
  · simp [runAskStream]

/-- Witness for C3: the spec scenario — a backend failure after exactly
three content-delta events yields those three events, one error event,
and a closed stream. -/
theorem stream_error_terminal_witness :
    (runAskStream [StreamEvent.contentDelta "a", StreamEvent.contentDelta "b",
        StreamEvent.contentDelta "c"] (some "model unavailable")).emitted =
      [StreamEvent.contentDelta "a", StreamEvent.contentDelta "b",
        StreamEvent.contentDelta "c",
        StreamEvent.errorEv "model unavailable"]
  ∧ (runAskStream [StreamEvent.contentDelta "a", StreamEvent.contentDelta "b",
        StreamEvent.contentDelta "c"] (some "model unavailable")).closed =
      true := by
  have h := stream_error_terminal
    [StreamEvent.contentDelta "a", StreamEvent.contentDelta "b",
      StreamEvent.contentDelta "c"] "model unavailable"
    (by intro e he; fin_cases he <;> exact ⟨_, rfl⟩)
  exact ⟨h.1, h.2.1⟩

/-- A JSON value as relevant to the request bodies: the JS truthiness and
typeof checks of the handlers distinguish strings, numbers, booleans and
null. -/
inductive JsonVal where
  | str (s : String)
  | num (q : ℚ)
  | boolean (b : Bool)
  | null
deriving Repr, DecidableEq

/-- Body of a `POST /search` request (`SearchRequest`): each field may be
absent (`none`). -/
structure SearchBody where
  query : Option JsonVal
  topK : Option JsonVal
  similarityThreshold : Option JsonVal
deriving Repr, DecidableEq

/-- Body of a `POST /ask` or `POST /ask/stream` request (`AskRequest` /
`AskStreamRequest`). -/
structure AskBody where
  question : Option JsonVal
  topK : Option JsonVal
  similarityThreshold : Option JsonVal
  maxAnswerLength : Option JsonVal
  systemPrompt : Option JsonVal
deriving Repr, DecidableEq

/-- The parameter resolution pattern repeated in all three handlers:
`body.x && typeof body.x === 'number' ? body.x : DEFAULT` — an absent,
non-number, or falsy (zero) value is replaced by the default. -/
def numOrDefault (v : Option JsonVal) (d : ℚ) : ℚ :=
  match v with
  | some (JsonVal.num q) => if q = 0 then d else q
  | _ => d

/-- `body.x && typeof body.x === 'string' ? body.x : undefined` (the
`systemPrompt` resolution). -/
def strOrNone (v : Option JsonVal) : Option String :=
  match v with
  | some (JsonVal.str s) => if s = "" then none else some s
  | _ => none

/-- The retrieval call issued by the `/search` handler. -/
structure SearchCall where
  query : String
  topK : ℚ
  similarityThreshold : ℚ
deriving Repr, DecidableEq

/-- The RAG call issued by the `/ask` and `/ask/stream` handlers. -/
structure AskCall where
  question : String
  topK : ℚ
  maxAnswerLength : ℚ
  systemPrompt : Option String
  similarityThreshold : ℚ
deriving Repr, DecidableEq

/-- Outcome of one `/search` request: HTTP status, error payload if any,
and the `searchSimilar` call performed, if any. -/
structure SearchHandlerResponse where
  status : Nat
  errorMsg : Option String
  call : Option SearchCall
deriving Repr, DecidableEq

/-- Outcome of one `/ask` or `/ask/stream` request. -/
structure AskHandlerResponse where
  status : Nat
  errorMsg : Option String
  call : Option AskCall
deriving Repr, DecidableEq

/-- The `POST /search` handler (server entry point, lines 70-126): the
validation guard `!body.query || typeof body.query !== 'string'` returns
status 400 with an error payload and performs no retrieval; otherwise the
handler resolves `topK` and `similarityThreshold` and calls
`searchSimilar` exactly once. -/
def handleSearch (defaultTopK defaultThreshold : ℚ)
    (body : SearchBody) : SearchHandlerResponse :=
  match body.query with
  | some (JsonVal.str s) =>
      if s = "" then
        { status := 400,
          errorMsg := some "Missing or invalid query parameter",
          call := none }
      else
        { status := 200, errorMsg := none,
          call := some
            { query := s,
              topK := numOrDefault body.topK defaultTopK,
              similarityThreshold :=
                numOrDefault body.similarityThreshold defaultThreshold } }
  | _ =>
      { status := 400,
        errorMsg := some "Missing or invalid query parameter",
        call := none }

/-- The `POST /ask` handler (lines 128-195): same validation on
`body.question`, then resolution of `topK`, `similarityThreshold`,
`maxAnswerLength` (default 800) and `systemPrompt`, and one `askQuestion`
call. -/
def handleAsk (defaultTopK defaultThreshold : ℚ)
    (body : AskBody) : AskHandlerResponse :=
  match body.question with
  | some (JsonVal.str s) =>
      if s = "" then
        { status := 400,
          errorMsg := some "Missing or invalid question parameter",
          call := none }
      else
        { status := 200, errorMsg := none,
          call := some
            { question := s,
              topK := numOrDefault body.topK defaultTopK,
              maxAnswerLength := numOrDefault body.maxAnswerLength 800,
              systemPrompt := strOrNone body.systemPrompt,
              similarityThreshold :=
                numOrDefault body.similarityThreshold defaultThreshold } }
  | _ =>
      { status := 400,
        errorMsg := some "Missing or invalid question parameter",
        call := none }

/-- The `POST /ask/stream` handler (lines 197-288): identical validation
and parameter resolution, issuing one `streamQuestion` call. -/
def handleAskStream (defaultTopK defaultThreshold : ℚ)
    (body : AskBody) : AskHandlerResponse :=
  match body.question with
  | some (JsonVal.str s) =>
      if s = "" then
        { status := 400,
          errorMsg := some "Missing or invalid question parameter",
          call := none }
      else
        { status := 200, errorMsg := none,
          call := some
            { question := s,
              topK := numOrDefault body.topK defaultTopK,
              maxAnswerLength := numOrDefault body.maxAnswerLength 800,
              systemPrompt := strOrNone body.systemPrompt,
              similarityThreshold :=
                numOrDefault body.similarityThreshold defaultThreshold } }
  | _ =>
      { status := 400,
        errorMsg := some "Missing or invalid question parameter",
        call := none }

/-- Claim C7: a `/search` request whose `query` is missing or not a
string, and an `/ask` or `/ask/stream` request whose `question` is
missing or not a string, get a 400 client-error response with an error
payload and trigger no retrieval or model call (and hence no retry: the
handler issues zero calls). -/
theorem invalid_request_rejected (dK dT : ℚ) (sb : SearchBody)
    (ab : AskBody)
    (hq : ∀ s, sb.query ≠ some (JsonVal.str s))
    (ha : ∀ s, ab.question ≠ some (JsonVal.str s)) :
    handleSearch dK dT sb =
      { status := 400,
        errorMsg := some "Missing or invalid query parameter",
        call := none }
  ∧ handleAsk dK dT ab =
      { status := 400,
        errorMsg := some "Missing or invalid question parameter",
        call := none }
  ∧ handleAskStream dK dT ab =
      { status := 400,
        errorMsg := some "Missing or invalid question parameter",
        call := none } := by
  refine ⟨?_, ?_, ?_⟩
  · unfold handleSearch
    match h : sb.query with
    | some (JsonVal.str s) => exact absurd h (hq s)
    | some (JsonVal.num q) => rfl
    | some (JsonVal.boolean b) => rfl
    | some JsonVal.null => rfl
    | none => rfl
  · unfold handleAsk
    match h : ab.question with
    | some (JsonVal.str s) => exact absurd h (ha s)
    | some (JsonVal.num q) => rfl
    | some (JsonVal.boolean b) => rfl
    | some JsonVal.null => rfl
    | none => rfl
  · unfold handleAskStream
    match h : ab.question with
    | some (JsonVal.str s) => exact absurd h (ha s)
    | some (JsonVal.num q) => rfl
    | some (JsonVal.boolean b) => rfl
    | some JsonVal.null => rfl
    | none => rfl

/-- Witness for C7: a `/search` body with a numeric query and an `/ask`
body with a missing question are both rejected with 400 and no call. -/
theorem invalid_request_rejected_witness :
    handleSearch 5 (7/10)
        { query := some (JsonVal.num 3), topK := none,
          similarityThreshold := none } =
      { status := 400,
        errorMsg := some "Missing or invalid query parameter",
        call := none }
  ∧ handleAsk 5 (7/10)
        { question := none, topK := none, similarityThreshold := none,
          maxAnswerLength := none, systemPrompt := none } =
      { status := 400,
        errorMsg := some "Missing or invalid question parameter",
        call := none } := by
  have h := invalid_request_rejected 5 (7/10)
    { query := some (JsonVal.num 3), topK := none,
      similarityThreshold := none }
    { question := none, topK := none, similarityThreshold := none,
      maxAnswerLength := none, systemPrompt := none }
    (by intro s h; simp at h) (by intro s h; simp at h)
  exact ⟨h.1, h.2.1⟩

/-- Claim C9: in all three handlers a present-but-zero `topK` or
`similarityThreshold` is falsy in the JS guard, so the configured default
is substituted for it — in particular a requested similarity threshold of
exactly 0 is silently replaced by the default. -/
theorem zero_param_replaced_by_default (dK dT : ℚ) (s : String)
    (sb : SearchBody) (ab : AskBody) (hs : s ≠ "")
    (hsq : sb.query = some (JsonVal.str s))
    (haq : ab.question = some (JsonVal.str s))
    (hstk : sb.topK = some (JsonVal.num 0))
    (hsth : sb.similarityThreshold = some (JsonVal.num 0))
    (hatk : ab.topK = some (JsonVal.num 0))
    (hath : ab.similarityThreshold = some (JsonVal.num 0)) :
    (handleSearch dK dT sb).call =
      some { query := s, topK := dK, similarityThreshold := dT }
  ∧ (handleAsk dK dT ab).call =
      some { question := s, topK := dK,
             maxAnswerLength := numOrDefault ab.maxAnswerLength 800,
             systemPrompt := strOrNone ab.systemPrompt,
             similarityThreshold := dT }
  ∧ (handleAskStream dK dT ab).call =
      some { question := s, topK := dK,
             maxAnswerLength := numOrDefault ab.maxAnswerLength 800,
             systemPrompt := strOrNone ab.systemPrompt,
             similarityThreshold := dT } := by
  refine ⟨?_, ?_, ?_⟩
  · simp [handleSearch, hsq, hs, hstk, hsth, numOrDefault]
  · simp [handleAsk, haq, hs, hatk, hath, numOrDefault]
  · simp [handleAskStream, haq, hs, hatk, hath, numOrDefault]

/-- Witness for C9: a concrete search request with threshold 0 and topK 0
is served with the defaults 5 and 7/10. -/
theorem zero_param_replaced_by_default_witness :
    (handleSearch 5 (7/10)
        { query := some (JsonVal.str "roas"),
          topK := some (JsonVal.num 0),
          similarityThreshold := some (JsonVal.num 0) }).call =
      some { query := "roas", topK := 5, similarityThreshold := 7/10 } :=
  (zero_param_replaced_by_default 5 (7/10) "roas"
    { query := some (JsonVal.str "roas"), topK := some (JsonVal.num 0),
      similarityThreshold := some (JsonVal.num 0) }
    { question := some (JsonVal.str "roas"),
      topK := some (JsonVal.num 0),
      similarityThreshold := some (JsonVal.num 0),
      maxAnswerLength := none, systemPrompt := none }
    (by decide) rfl rfl rfl rfl rfl rfl).1

/-- A row of the `documents` table as read by the merge-db script
(`DocumentRow` interface). -/
structure DocumentRow where
  id : Nat
  filename : String
  content : String
  chunk_text : String
  embedding : List ℚ
  chunk_index : Nat
  chunk_size : Nat
  hypothetical_questions : Option String
  question_embeddings : Option (List ℚ)
  chunk_metadata : Option String
  created_at : Nat
deriving Repr, DecidableEq

/-- The deduplication key of the merge script:
`${doc.filename}:${doc.chunk_index}`. -/
def mergeKey (doc : DocumentRow) : String :=
  doc.filename ++ ":" ++ toString doc.chunk_index

/-- Mutable state of the merge loop: rows inserted into the target
database so far, and the `duplicates` key set (modelled as the list of
added keys, newest first). -/
structure MergeState where
  target : List DocumentRow
  duplicates : List String
deriving Repr, DecidableEq

/-- Per-source counters reported by the merge script. -/
structure SourceStats where
  inserted : Nat
  skipped : Nat
deriving Repr, DecidableEq

/-- The inner per-document loop of the merge script (lines 343-359 of the
merge-db script): a document whose key is already in `duplicates` is
skipped and counted; otherwise it is inserted into the target, its key is
added to `duplicates`, and the inserted counter is bumped. -/
def mergeSourceGo (st : MergeState) (stats : SourceStats) :
    List DocumentRow → MergeState × SourceStats
  | [] => (st, stats)
  | doc :: docs =>
      if mergeKey doc ∈ st.duplicates then
        mergeSourceGo st { stats with skipped := stats.skipped + 1 } docs
      else
        mergeSourceGo
          { target := st.target ++ [doc],
            duplicates := mergeKey doc :: st.duplicates }
          { stats with inserted := stats.inserted + 1 } docs

/-- Processing of one source database: counters start at zero per source
(lines 340-341). -/
def mergeSource (st : MergeState) (docs : List DocumentRow) :
    MergeState × SourceStats :=
  mergeSourceGo st { inserted := 0, skipped := 0 } docs

/-- The outer loop of the merge script over its source databases, with the
per-source statistics collected in order (`documentsBySource` and the
per-source skipped log). -/
def mergeDb (st : MergeState) :
    List (List DocumentRow) → MergeState × List SourceStats
  | [] => (st, [])
  | docs :: rest =>
      let step := mergeSource st docs
      let next := mergeDb step.1 rest
      (next.1, step.2 :: next.2)

/-- A full merge run into a fresh target database. -/
def mergeDbRun (sources : List (List DocumentRow)) :
    MergeState × List SourceStats :=
  mergeDb { target := [], duplicates := [] } sources

/-- Dedup as the spec words it: walk all rows in order and keep a row
exactly when its key has not been seen before (first write wins). -/
def firstWins (seen : List String) : List DocumentRow → List DocumentRow
  | [] => []
  | d :: ds =>
      if mergeKey d ∈ seen then firstWins seen ds
      else d :: firstWins (mergeKey d :: seen) ds

theorem firstWins_length_le (l : List DocumentRow) :
    ∀ seen, (firstWins seen l).length ≤ l.length := by
  induction l with
  | nil => intro seen; simp [firstWins]
  | cons d ds ih =>
      intro seen
      unfold firstWins
      split
      · exact Nat.le_succ_of_le (ih seen)
      · simpa using ih (mergeKey d :: seen)

/-- Characterization of the inner merge loop by `firstWins`. -/
theorem mergeSourceGo_spec (docs : List DocumentRow) :
    ∀ (st : MergeState) (stats : SourceStats),
      (mergeSourceGo st stats docs).1.target =
        st.target ++ firstWins st.duplicates docs
    ∧ (mergeSourceGo st stats docs).1.duplicates =
        ((firstWins st.duplicates docs).map mergeKey).reverse ++
          st.duplicates
    ∧ (mergeSourceGo st stats docs).2.inserted =
        stats.inserted + (firstWins st.duplicates docs).length
    ∧ (mergeSourceGo st stats docs).2.skipped =
        stats.skipped +
          (docs.length - (firstWins st.duplicates docs).length) := by
  induction docs with
  | nil => intro st stats; simp [mergeSourceGo, firstWins]
  | cons d ds ih =>
      intro st stats
      by_cases h : mergeKey d ∈ st.duplicates
      · have hlen := firstWins_length_le ds st.duplicates
        obtain ⟨h1, h2, h3, h4⟩ :=
          ih st { stats with skipped := stats.skipped + 1 }
        dsimp only at h1 h2 h3 h4
        refine ⟨?_, ?_, ?_, ?_⟩ <;>
          simp only [mergeSourceGo, if_pos h, firstWins, h1, h2, h3, h4,
            List.length_cons]
        omega
      · have hlen := firstWins_length_le ds (mergeKey d :: st.duplicates)
        obtain ⟨h1, h2, h3, h4⟩ :=
          ih { target := st.target ++ [d],
               duplicates := mergeKey d :: st.duplicates }
            { stats with inserted := stats.inserted + 1 }
        dsimp only at h1 h2 h3 h4
        refine ⟨?_, ?_, ?_, ?_⟩ <;>
          simp only [mergeSourceGo, if_neg h, firstWins, h1, h2, h3, h4,
            List.length_cons]
        · simp
        · simp
        · omega
        · omega

/-- `firstWins` over an append: the second part is filtered against the
keys already retained from the first part. -/
theorem firstWins_append (l1 : List DocumentRow) :
    ∀ (seen : List String) (l2 : List DocumentRow),
      firstWins seen (l1 ++ l2) =
        firstWins seen l1 ++
          firstWins (((firstWins seen l1).map mergeKey).reverse ++ seen)
            l2 := by
  induction l1 with
  | nil => intro seen l2; simp [firstWins]
  | cons d ds ih =>
      intro seen l2
      by_cases h : mergeKey d ∈ seen
      · simpa [firstWins, h] using ih seen l2
      · simp only [List.cons_append, firstWins, if_neg h, List.append_eq]
        rw [ih (mergeKey d :: seen) l2]
        simp [List.reverse_cons, List.append_assoc]

/-- Characterization of the full merge run by `firstWins` over the
concatenation of all source rows, plus the reported per-source counts. -/
theorem mergeDb_spec (sources : List (List DocumentRow)) :
    ∀ st : MergeState,
      (mergeDb st sources).1.target =
        st.target ++ firstWins st.duplicates sources.join
    ∧ (mergeDb st sources).1.duplicates =
        ((firstWins st.duplicates sources.join).map mergeKey).reverse ++
          st.duplicates
    ∧ (mergeDb st sources).2.map
        (fun stats => stats.inserted + stats.skipped) =
        sources.map List.length
    ∧ ((mergeDb st sources).2.map SourceStats.inserted).sum =
        (firstWins st.duplicates sources.join).length := by
  induction sources with
  | nil => intro st; simp [mergeDb, firstWins]
  | cons docs rest ih =>
      intro st
      obtain ⟨g1, g2, g3, g4⟩ :=
        mergeSourceGo_spec docs st { inserted := 0, skipped := 0 }
      dsimp only at g1 g2 g3 g4
      obtain ⟨r1, r2, r3, r4⟩ := ih (mergeSource st docs).1
      simp only [mergeSource] at r1 r2 r3 r4
      rw [g1, g2] at r1
      rw [g2] at r2 r4
      have hfw := firstWins_append docs st.duplicates rest.join
      have hlen := firstWins_length_le docs st.duplicates
      refine ⟨?_, ?_, ?_, ?_⟩
      · simp only [mergeDb, mergeSource, List.join_cons, hfw, r1,
          List.append_assoc]
      · simp only [mergeDb, mergeSource, List.join_cons, hfw, r2, g2,
          List.map_append, List.reverse_append, List.append_assoc]
      · simp only [mergeDb, mergeSource, List.map_cons, r3, g3, g4,
          List.length_cons]
        congr 1
        omega
      · simp only [mergeDb, mergeSource, List.map_cons, List.sum_cons, r4,
          g3, List.join_cons, hfw, List.length_append]
        omega

/-- A key already seen never reappears among the keys retained by
`firstWins`. -/
theorem firstWins_key_not_seen (l : List DocumentRow) :
    ∀ (seen : List String) (k : String), k ∈ seen →
      k ∉ (firstWins seen l).map mergeKey := by
  induction l with
  | nil => intro seen k hk; simp [firstWins]
  | cons d ds ih =>
      intro seen k hk
      unfold firstWins
      split
      · exact ih seen k hk
      · rename_i hnd
        intro hmem
        rw [List.map_cons] at hmem
        rcases List.mem_cons.mp hmem with h1 | h1
        · exact hnd (h1 ▸ hk)
        · exact ih (mergeKey d :: seen) k (List.mem_cons_of_mem _ hk) h1

/-- The rows retained by `firstWins` have pairwise distinct keys. -/
theorem firstWins_keys_nodup (l : List DocumentRow) :
    ∀ seen, ((firstWins seen l).map mergeKey).Nodup := by
  induction l with
  | nil => intro seen; simp [firstWins]
  | cons d ds ih =>
      intro seen
      unfold firstWins
      split
      · exact ih seen
      · simp only [List.map_cons, List.nodup_cons]
        exact ⟨firstWins_key_not_seen ds _ _ (List.mem_cons_self _ _),
          ih _⟩

/-- The first row bearing an unseen key is always retained. -/
theorem firstWins_mem_of_first (d : DocumentRow) (l2 : List DocumentRow)
    (l1 : List DocumentRow) :
    ∀ seen : List String,
      mergeKey d ∉ seen → mergeKey d ∉ l1.map mergeKey →
      d ∈ firstWins seen (l1 ++ d :: l2) := by
  induction l1 with
  | nil =>
      intro seen hs _
      simp [firstWins, hs]
  | cons a as ih =>
      intro seen hs h1
      simp only [List.map_cons, List.mem_cons, not_or] at h1
      obtain ⟨hne, h1s⟩ := h1
      simp only [List.cons_append, firstWins]
      split
      · exact ih seen hs h1s
      · exact List.mem_cons_of_mem _
          (ih (mergeKey a :: seen) (by simp [hs, hne]) h1s)

/-- Every retained row is the first occurrence of its key. -/
theorem firstWins_mem_first_occurrence (l : List DocumentRow) :
    ∀ (seen : List String) (d : DocumentRow), d ∈ firstWins seen l →
      ∃ l1 l2, l = l1 ++ d :: l2 ∧ mergeKey d ∉ seen ∧
        mergeKey d ∉ l1.map mergeKey := by
  induction l with
  | nil => intro seen d hd; simp [firstWins] at hd
  | cons a as ih =>
      intro seen d hd
      unfold firstWins at hd
      by_cases h : mergeKey a ∈ seen
      · rw [if_pos h] at hd
        obtain ⟨l1, l2, he, hs, h1⟩ := ih seen d hd
        refine ⟨a :: l1, l2, by simp [he], hs, ?_⟩
        simp only [List.map_cons, List.mem_cons, not_or]
        exact ⟨fun heq => hs (heq ▸ h), h1⟩
      · rw [if_neg h] at hd
        rcases List.mem_cons.mp hd with rfl | hd1
        · exact ⟨[], as, rfl, h, by simp⟩
        · obtain ⟨l1, l2, he, hs, h1⟩ := ih (mergeKey a :: seen) d hd1
          simp only [List.mem_cons, not_or] at hs
          obtain ⟨hne, hs1⟩ := hs
          exact ⟨a :: l1, l2, by simp [he], hs1, by simp [hne, h1]⟩

/-- Claim C4: merging source databases into a fresh target deduplicates on
the `(filename, chunk_index)` key.  The target rows are exactly
`firstWins` over all source rows in encounter order; retained keys are
pairwise distinct; the first row carrying each key is inserted and every
retained row is such a first occurrence (so every later colliding row is
dropped); every source row is counted either inserted or skipped, per
source, and the total inserted count equals the target size (hence the
skipped counts are exactly the dropped rows). -/
theorem merge_dedup_first_wins (sources : List (List DocumentRow)) :
    (mergeDbRun sources).1.target = firstWins [] sources.join
  ∧ ((mergeDbRun sources).1.target.map mergeKey).Nodup
  ∧ (∀ l1 d l2, sources.join = l1 ++ d :: l2 →
      mergeKey d ∉ l1.map mergeKey →
      d ∈ (mergeDbRun sources).1.target)
  ∧ (∀ d ∈ (mergeDbRun sources).1.target,
      ∃ l1 l2, sources.join = l1 ++ d :: l2 ∧
        mergeKey d ∉ l1.map mergeKey)
  ∧ (mergeDbRun sources).2.map
      (fun stats => stats.inserted + stats.skipped) =
      sources.map List.length
  ∧ ((mergeDbRun sources).2.map SourceStats.inserted).sum =
      (mergeDbRun sources).1.target.length := by
  obtain ⟨m1, m2, m3, m4⟩ :=
    mergeDb_spec sources { target := [], duplicates := [] }
  dsimp only at m1 m2 m3 m4
  have htarget : (mergeDbRun sources).1.target =
      firstWins [] sources.join := by
    simpa [mergeDbRun] using m1
  refine ⟨htarget, ?_, ?_, ?_, ?_, ?_⟩
  · rw [htarget]; exact firstWins_keys_nodup sources.join []
  · intro l1 d l2 hj h1
    rw [htarget, hj]
    exact firstWins_mem_of_first d l2 l1 [] (by simp) h1
  · intro d hd
    rw [htarget] at hd
    obtain ⟨l1, l2, he, _, h1⟩ :=
      firstWins_mem_first_occurrence sources.join [] d hd
    exact ⟨l1, l2, he, h1⟩
  · simpa [mergeDbRun] using m3
  · rw [htarget]
    simpa [mergeDbRun] using m4

/-- Concrete rows for the C4 witness: `wRowC` collides with `wRowA` on the
key `a.txt:0`. -/
def wRowA : DocumentRow :=
  { id := 1, filename := "a.txt", content := "ca", chunk_text := "ta",
    embedding := [1], chunk_index := 0, chunk_size := 2,
    hypothetical_questions := none, question_embeddings := none,
    chunk_metadata := none, created_at := 10 }

def wRowB : DocumentRow :=
  { id := 2, filename := "b.txt", content := "cb", chunk_text := "tb",
    embedding := [2], chunk_index := 0, chunk_size := 2,
    hypothetical_questions := none, question_embeddings := none,
    chunk_metadata := none, created_at := 11 }

def wRowC : DocumentRow :=
  { id := 7, filename := "a.txt", content := "cc", chunk_text := "tc",
    embedding := [3], chunk_index := 0, chunk_size := 2,
    hypothetical_questions := none, question_embeddings := none,
    chunk_metadata := none, created_at := 12 }

/-- Witness for C4 on two concrete overlapping sources: the first write
wins, the collider is dropped and counted. -/
theorem merge_dedup_first_wins_witness :
    (mergeDbRun [[wRowA, wRowB], [wRowC]]).1.target =
      firstWins [] [[wRowA, wRowB], [wRowC]].join
  ∧ wRowA ∈ (mergeDbRun [[wRowA, wRowB], [wRowC]]).1.target
  ∧ (mergeDbRun [[wRowA, wRowB], [wRowC]]).2.map
      (fun stats => stats.inserted + stats.skipped) =
      [[wRowA, wRowB], [wRowC]].map List.length := by
  have h := merge_dedup_first_wins [[wRowA, wRowB], [wRowC]]
  refine ⟨h.1, ?_, h.2.2.2.2.1⟩
  exact h.2.2.1 [] wRowA [wRowB, wRowC] (by decide) (by decide)

/-- One `<url>` entry parsed from a sitemap (`SitemapUrl` in
src/utils/sitemap.ts). -/
structure SitemapUrl where
  loc : String
  lastmod : Option String
  changefreq : Option String
  priority : Option String
deriving Repr, DecidableEq

/-- The classified content of one fetched sitemap document: the fetch or
parse threw (`fetchSitemap` failure, caught per sitemap), or
`isSitemapIndex` holds and `parseSitemapIndex` yields the nested sitemap
URLs, or `parseSitemap` yields the page URL entries.  The network and the
regex parsers are abstracted into this classification, which is all
`extractAllUrls` inspects. -/
inductive FetchOutcome where
  | fetchFailed (message : String)
  | indexContent (nested : List String)
  | urlsContent (urls : List SitemapUrl)
deriving Repr, DecidableEq

/-- State threaded through `extractRecursive`: the `visitedSitemaps` set
(newest first), the accumulated `allUrls`, and the log of `fetchSitemap`
calls in order. -/
structure ExtractState where
  visitedSitemaps : List String
  allUrls : List SitemapUrl
  fetched : List String
deriving Repr, DecidableEq

/-- `extractRecursive` (src/utils/sitemap.ts lines 130-167).  The source
guard `depth > maxDepth || visitedSitemaps.has(url)` is modelled with
fuel `maxDepth + 1 - depth`: fuel 0 is the depth-exceeded early return,
and each nested recursion (depth + 1) runs on one less fuel.  On a
non-visited URL the function marks it visited, fetches it (logged in
`fetched`), then either stops on a fetch error, recurses over the nested
sitemaps of an index, or appends the parsed page URLs. -/
def extractRecursive (net : String → FetchOutcome) :
    Nat → String → ExtractState → ExtractState
  | 0, _, st => st
  | fuel + 1, url, st =>
      if url ∈ st.visitedSitemaps then st
      else
        match net url with
        | FetchOutcome.fetchFailed _ =>
            { st with visitedSitemaps := url :: st.visitedSitemaps,
                      fetched := st.fetched ++ [url] }
        | FetchOutcome.indexContent nested =>
            nested.foldl (fun s u => extractRecursive net fuel u s)
              { st with visitedSitemaps := url :: st.visitedSitemaps,
                        fetched := st.fetched ++ [url] }
        | FetchOutcome.urlsContent urls =>
            { visitedSitemaps := url :: st.visitedSitemaps,
              allUrls := st.allUrls ++ urls,
              fetched := st.fetched ++ [url] }

/-- `extractAllUrls` (lines 123-172): run the recursion from the root
sitemap URL at depth 0 with empty state. -/
def extractAllUrls (net : String → FetchOutcome) (sitemapUrl : String)
    (maxDepth : Nat) : ExtractState :=
  extractRecursive net (maxDepth + 1) sitemapUrl
    { visitedSitemaps := [], allUrls := [], fetched := [] }

/-- The default `maxDepth` of `extractAllUrls`. -/
def sitemapDefaultMaxDepth : Nat := 3

/-- Invariant of the extraction: the visited set has no duplicates and is
exactly the reversed fetch log (every fetch is of a freshly visited
sitemap). -/
def ExtractInv (st : ExtractState) : Prop :=
  st.visitedSitemaps.Nodup ∧
  st.visitedSitemaps = st.fetched.reverse

theorem extractRecursive_inv (net : String → FetchOutcome) :
    ∀ (fuel : Nat) (url : String) (st : ExtractState),
      ExtractInv st → ExtractInv (extractRecursive net fuel url st) := by
  intro fuel
  induction fuel with
  | zero => intro url st h; simpa [extractRecursive] using h
  | succ fuel ih =>
      intro url st h
      have hfold : ∀ (l : List String) (s : ExtractState), ExtractInv s →
          ExtractInv (l.foldl
            (fun s u => extractRecursive net fuel u s) s) := by
        intro l
        induction l with
        | nil => intro s hs; simpa using hs
        | cons a as ihl =>
            intro s hs
            simpa [List.foldl_cons] using ihl _ (ih a s hs)
      unfold extractRecursive
      split
      · exact h
      · rename_i hnv
        obtain ⟨hn, he⟩ := h
        have h1 : ExtractInv
            { st with visitedSitemaps := url :: st.visitedSitemaps,
                      fetched := st.fetched ++ [url] } :=
          ⟨List.nodup_cons.mpr ⟨hnv, hn⟩, by simp [he]⟩
        cases hnet : net url with
        | fetchFailed m => exact h1
        | indexContent nested => exact hfold nested _ h1
        | urlsContent urls =>
            exact ⟨h1.1, by simpa using h1.2⟩

/-- Claim C10: `extractAllUrls` terminates on every input (it is a total
function of its fuel `maxDepth + 1`, the depth guard of the source), and
even on a cyclic sitemap-index graph each sitemap URL is fetched at most
once: the fetch log has no duplicates and is in bijection with the
visited set, and a call past the depth bound performs no fetch at all. -/
theorem sitemap_extraction_fetches_once (net : String → FetchOutcome)
    (maxDepth : Nat) (url : String) :
    (extractAllUrls net url maxDepth).fetched.Nodup
  ∧ (extractAllUrls net url maxDepth).visitedSitemaps =
      (extractAllUrls net url maxDepth).fetched.reverse
  ∧ (∀ (u : String) (st : ExtractState),
      extractRecursive net 0 u st = st) := by
  have h := extractRecursive_inv net (maxDepth + 1) url
    { visitedSitemaps := [], allUrls := [], fetched := [] }
    ⟨List.nodup_nil, rfl⟩
  obtain ⟨hn, he⟩ := h
  refine ⟨?_, he, fun u st => rfl⟩
  have h2 := hn
  rw [he] at h2
  have h3 : (extractAllUrls net url maxDepth).fetched.reverse.Nodup := h2
  simpa using h3

/-- Modelled from the spec: the retrieval engine (`searchSimilar` in
`src/services/search.ts`) is not among the inspected sources — only its
callers are.  Per spec section 4.5, a chunk's question score is the
maximum similarity across the chunk's own question vectors, `none` when
the chunk has no question vectors.  The similarity function (cosine) is
abstracted as a parameter `sim`. -/
def questionScore (sim : List ℚ → List ℚ → ℚ) (query : List ℚ) :
    List (List ℚ) → Option ℚ
  | [] => none
  | v :: vs =>
      match questionScore sim query vs with
      | none => some (sim query v)
      | some m => some (max (sim query v) m)

/-- Modelled from the spec (section 4.5): the fused score is
`max(content score, question score)`; a chunk with no question vectors
scores by its content vector alone. -/
def fusedScore (sim : List ℚ → List ℚ → ℚ) (query contentVec : List ℚ)
    (questionVecs : List (List ℚ)) : ℚ :=
  match questionScore sim query questionVecs with
  | none => sim query contentVec
  | some s => max (sim query contentVec) s

/-- One-step unfolding of `questionScore`. -/
theorem questionScore_cons (sim : List ℚ → List ℚ → ℚ)
    (query v : List ℚ) (vs : List (List ℚ)) :
    questionScore sim query (v :: vs) =
      match questionScore sim query vs with
      | none => some (sim query v)
      | some m => some (max (sim query v) m) := rfl

theorem questionScore_cons_attained (sim : List ℚ → List ℚ → ℚ)
    (query : List ℚ) (v : List ℚ) (vs : List (List ℚ)) :
    ∃ s, questionScore sim query (v :: vs) = some s
      ∧ (∀ u ∈ v :: vs, sim query u ≤ s)
      ∧ (∃ u ∈ v :: vs, sim query u = s) := by
  induction vs generalizing v with
  | nil =>
      refine ⟨sim query v, by simp [questionScore], ?_, ⟨v, by simp⟩⟩
      intro u hu
      simp only [List.mem_cons, List.not_mem_nil, or_false] at hu
      exact le_of_eq (by rw [hu])
  | cons w ws ih =>
      obtain ⟨s, hs, hub, u0, hu0, hu0e⟩ := ih w
      refine ⟨max (sim query v) s, ?_, ?_, ?_⟩
      · rw [questionScore_cons, hs]
      · intro u hu
        rcases List.mem_cons.mp hu with rfl | hu
        · exact le_max_left _ _
        · exact le_trans (hub u hu) (le_max_right _ _)
      · rcases le_total (sim query v) s with hle | hle
        · exact ⟨u0, List.mem_cons_of_mem _ hu0,
            by rw [hu0e, max_eq_right hle]⟩
        · exact ⟨v, List.mem_cons_self _ _, (max_eq_left hle).symm⟩

theorem questionScore_mono_insert (sim : List ℚ → List ℚ → ℚ)
    (query : List ℚ) (v : List ℚ) (l1 : List (List ℚ)) :
    ∀ l2 : List (List ℚ),
      ∀ s, questionScore sim query (l1 ++ l2) = some s →
        ∃ t, questionScore sim query (l1 ++ v :: l2) = some t ∧ s ≤ t := by
  induction l1 with
  | nil =>
      intro l2 s hs
      simp only [List.nil_append] at hs ⊢
      cases l2 with
      | nil => simp [questionScore] at hs
      | cons w ws =>
          refine ⟨max (sim query v) s, ?_, le_max_right _ _⟩
          rw [questionScore_cons, hs]
  | cons w ws ih =>
      intro l2 s hs
      simp only [List.cons_append] at hs ⊢
      rw [questionScore_cons] at hs
      cases hq : questionScore sim query (ws ++ l2) with
      | none =>
          rw [hq] at hs
          have hsw : sim query w = s := by simpa using hs
          cases hq2 : questionScore sim query (ws ++ v :: l2) with
          | none =>
              refine ⟨s, ?_, le_refl s⟩
              rw [questionScore_cons, hq2]
              simp [hsw]
          | some t2 =>
              refine ⟨max (sim query w) t2, ?_, ?_⟩
              · rw [questionScore_cons, hq2]
              · rw [← hsw]; exact le_max_left _ _
      | some m =>
          rw [hq] at hs
          have hsm : max (sim query w) m = s := by simpa using hs
          obtain ⟨t, ht, hmt⟩ := ih l2 m hq
          refine ⟨max (sim query w) t, ?_, ?_⟩
          · rw [questionScore_cons, ht]
          · rw [← hsm]; exact max_le_max (le_refl _) hmt

/-- Claim C2: the question score of a chunk is the maximum cosine
similarity over that chunk's own question vectors (it bounds every
question similarity and is attained by one of them); the fused score is
`max(content score, question score)` — equal to the content score when
the chunk has no questions; and inserting an additional question vector
anywhere never lowers the fused score for a fixed query.  Stated over an
arbitrary similarity function, hence in particular for cosine. -/
theorem fused_score_max_fusion (sim : List ℚ → List ℚ → ℚ)
    (query contentVec : List ℚ) :
    fusedScore sim query contentVec [] = sim query contentVec
  ∧ (∀ (v : List ℚ) (vs : List (List ℚ)), ∃ s,
      questionScore sim query (v :: vs) = some s
      ∧ fusedScore sim query contentVec (v :: vs) =
          max (sim query contentVec) s
      ∧ (∀ u ∈ v :: vs, sim query u ≤ s)
      ∧ (∃ u ∈ v :: vs, sim query u = s))
  ∧ (∀ (l1 l2 : List (List ℚ)) (v : List ℚ),
      fusedScore sim query contentVec (l1 ++ l2) ≤
        fusedScore sim query contentVec (l1 ++ v :: l2)) := by
  refine ⟨rfl, ?_, ?_⟩
  · intro v vs
    obtain ⟨s, hs, hub, hat⟩ := questionScore_cons_attained sim query v vs
    exact ⟨s, hs, by simp [fusedScore, hs], hub, hat⟩
  · intro l1 l2 v
    cases hq : questionScore sim query (l1 ++ l2) with
    | none =>
        cases hq2 : questionScore sim query (l1 ++ v :: l2) with
        | none => simp [fusedScore, hq, hq2]
        | some t => simp [fusedScore, hq, hq2, le_max_left]
    | some s =>
        obtain ⟨t, ht, hst⟩ := questionScore_mono_insert sim query v l1 l2
          s hq
        simp only [fusedScore, hq, ht]
        exact max_le_max (le_refl _) hst

/-- Witness for C2 at a concrete similarity function, query and vectors:
the question score of two questions is their best similarity, the fused
score is the max fusion, and adding a third question does not lower it. -/
theorem fused_score_max_fusion_witness :
    fusedScore (fun a b => a.headD 0 * b.headD 0) [2] [3] [[1], [4]] =
      max 6 8
  ∧ fusedScore (fun a b => a.headD 0 * b.headD 0) [2] [3] [[1], [4]] ≤
      fusedScore (fun a b => a.headD 0 * b.headD 0) [2] [3]
        [[1], [5], [4]] := by
  have h := fused_score_max_fusion (fun a b => a.headD 0 * b.headD 0)
    [2] [3]
  constructor
  · obtain ⟨s, hs, hf, _, _⟩ := h.2.1 [1] [[4]]
    have h8 : questionScore (fun a b : List ℚ => a.headD 0 * b.headD 0)
        [2] ([1] :: [[4]]) = some 8 := by
      norm_num [questionScore]
    rw [h8] at hs
    obtain rfl : (8 : ℚ) = s := by simpa using hs
    rw [hf]
    norm_num
  · simpa using h.2.2 [[1]] [[4]] [5]
